import Mathlib

/-!
Shallow embedding of the simp_protocol repository (Rust) in Lean 4.

Bytes are modelled as `Nat` values; every operation the Rust code performs
on `u8` is performed modulo 256 where overflow or truncation matters
(`wrapping_add`, `as u8`).  Byte buffers (`Vec<u8>`, `&[u8]`) are `List Nat`.
Fallible Rust functions returning `Result<T, &'static str>` are embedded as
`Except String T`, carrying the exact error strings of the source.

The sources embedded here are src/packet.rs, src/uart.rs, src/sbt_client.rs
and src/sbt_server.rs.  The `Uart` trait is modelled by the queue-backed
channel the repository itself uses for all of its tests (`MockUart` in
src/mocks.rs): `read` pops the front of a pending-input queue or yields
nothing when the queue is empty (which is how a timeout window with no
arriving byte manifests), and `write` appends to a log of written bytes.
The model adds a `write_fails` flag so that implementations of the trait
whose `write` returns `Err` are representable as well.
-/

set_option maxRecDepth 400000

namespace SimpProtocol

/-- START_BYTE from src/packet.rs. -/
def START_BYTE : Nat := 0x7E

/-- END_BYTE from src/packet.rs. -/
def END_BYTE : Nat := 0x7F

/-- ESCAPE_BYTE from src/packet.rs. -/
def ESCAPE_BYTE : Nat := 0x7D

/-- ESCAPE_XOR from src/packet.rs. -/
def ESCAPE_XOR : Nat := 0x20

/-- ACK_BYTE from src/uart.rs. -/
def ACK_BYTE : Nat := 0x06

/-- NACK_BYTE from src/uart.rs. -/
def NACK_BYTE : Nat := 0x15

/-- The `Packet` struct of src/packet.rs. -/
structure Packet where
  start_byte : Nat
  length : Nat
  payload : List Nat
  checksum : Nat
  end_byte : Nat
  deriving Repr, DecidableEq

/-- Embeds `Packet::calculate_checksum`: wrapping 8-bit sum of the given bytes. -/
def calculate_checksum (payload : List Nat) : Nat :=
  payload.foldl (fun acc x => (acc + x) % 256) 0

/-- Embeds `Packet::escape_payload`: byte-stuffing of the three reserved bytes. -/
def escape_payload : List Nat → List Nat
  | [] => []
  | b :: rest =>
    if b = START_BYTE ∨ b = END_BYTE ∨ b = ESCAPE_BYTE then
      ESCAPE_BYTE :: (b ^^^ ESCAPE_XOR) :: escape_payload rest
    else
      b :: escape_payload rest

/-- Helper for `Packet::unescape_payload`: the Boolean is the
`escape_next` flag of the source loop. -/
def unescape_aux : Bool → List Nat → List Nat
  | _, [] => []
  | true, b :: rest => (b ^^^ ESCAPE_XOR) :: unescape_aux false rest
  | false, b :: rest =>
    if b = ESCAPE_BYTE then unescape_aux true rest
    else b :: unescape_aux false rest

/-- Embeds `Packet::unescape_payload`. -/
def unescape_payload (payload : List Nat) : List Nat :=
  unescape_aux false payload

/-- Embeds `Packet::new`: escapes the payload, then computes length and checksum
over the ESCAPED bytes (`length = escaped_payload.len() as u8`). -/
def Packet.new (payload : List Nat) : Packet :=
  let escaped_payload := escape_payload payload
  { start_byte := START_BYTE
    length := escaped_payload.length % 256
    payload := escaped_payload
    checksum := calculate_checksum escaped_payload
    end_byte := END_BYTE }

/-- Embeds `Packet::to_bytes`: start, length, payload bytes, checksum, end. -/
def Packet.to_bytes (p : Packet) : List Nat :=
  p.start_byte :: p.length :: (p.payload ++ [p.checksum, p.end_byte])

/-- Embeds `Packet::from_bytes`.  Note that the source validates the transmitted
checksum against the checksum recomputed over the UNESCAPED payload
(`calculate_checksum(&unescaped_payload)`), while `Packet::new` computed it
over the escaped payload. -/
def Packet.from_bytes (bytes : List Nat) : Except String Packet :=
  if bytes.length < 4 ∨ bytes.headD 0 ≠ START_BYTE ∨
      bytes.getLastD 0 ≠ END_BYTE then
    .error "Invalid packet structure"
  else
    let length := bytes.getD 1 0
    let checksum := bytes.getD (bytes.length - 2) 0
    let payload := (bytes.drop 2).take (bytes.length - 4)
    let unescaped_payload := unescape_payload payload
    if checksum ≠ calculate_checksum unescaped_payload then
      .error "Checksum mismatch"
    else
      .ok { start_byte := START_BYTE
            length := length % 256
            payload := unescaped_payload
            checksum := checksum
            end_byte := END_BYTE }

/-- The queue-backed channel state modelling the `Uart` trait of
src/uart.rs, exactly as the repository instantiates it in src/mocks.rs:
`read_data` is the queue of bytes still to arrive, `write_data` the log of
bytes written so far.  `write_fails` makes `write` return an error, to
model trait implementations whose write fails (the mock never fails). -/
structure Channel where
  read_data : List Nat
  write_data : List Nat
  write_fails : Bool
  deriving Repr, DecidableEq

/-- Embeds `Uart::write` (mock semantics plus the failure flag): appends the data
and reports the number of bytes written. -/
def Channel.write (u : Channel) (data : List Nat) : Except String (Nat × Channel) :=
  if u.write_fails then .error "write error"
  else .ok (data.length, { u with write_data := u.write_data ++ data })

/-- Embeds `Uart::read` (mock semantics): pops the front of the pending queue, or
yields nothing when the queue is empty. -/
def Channel.read (u : Channel) : Option Nat × Channel :=
  match u.read_data with
  | [] => (none, u)
  | b :: rest => (some b, { u with read_data := rest })

/-- Embeds `send_packet` from src/uart.rs: serialize and write, mapping a write
failure to the fixed error string. -/
def send_packet (uart : Channel) (packet : Packet) : Except String (Nat × Channel) :=
  match uart.write packet.to_bytes with
  | .ok r => .ok r
  | .error _ => .error "Failed to send packet"

/-- The ACK-wait window of `send_packet_with_ack` (the
`while start_time.elapsed() < timeout` loop), run on the pending read
queue.  An ACK byte ends the window successfully, a NACK byte ends it
unsuccessfully, any other byte is discarded and the loop continues, and an
exhausted queue means no further byte arrives inside the window, i.e. the
window times out.  Returns whether an ACK was read, and the queue left. -/
def ack_wait_aux : List Nat → Bool × List Nat
  | [] => (false, [])
  | b :: rest =>
    if b = ACK_BYTE then (true, rest)
    else if b = NACK_BYTE then (false, rest)
    else ack_wait_aux rest

/-- Embeds `send_packet_with_ack` from src/uart.rs: up to `retries` rounds of
send-then-wait; the `timeout : Duration` argument of the source bounds the
wait window in real time, which the queue model renders as exhaustion of
the pending queue. -/
def send_packet_with_ack : Channel → Packet → Nat → Except String Unit × Channel
  | u, _, 0 => (.error "Failed to send packet after retries", u)
  | u, p, Nat.succ r =>
    match send_packet u p with
    | .error e => (.error e, u)
    | .ok (_, u1) =>
      let (acked, rest) := ack_wait_aux u1.read_data
      let u2 := { u1 with read_data := rest }
      if acked then (.ok (), u2)
      else send_packet_with_ack u2 p r

/-- The byte-accumulation loop of `receive_packet`: read bytes into a
buffer until END_BYTE is seen, then deserialize; an exhausted queue before
any END_BYTE is the source loop ending with `read` yielding `None`.
Returns the result together with the queue left. -/
def receive_packet_aux (buffer : List Nat) : List Nat → Except String Packet × List Nat
  | [] => (.error "Failed to receive packet", [])
  | b :: rest =>
    let buffer2 := buffer ++ [b]
    if b = END_BYTE then (Packet.from_bytes buffer2, rest)
    else receive_packet_aux buffer2 rest

/-- Embeds `receive_packet` from src/uart.rs. -/
def receive_packet (u : Channel) : Except String Packet × Channel :=
  let r := receive_packet_aux [] u.read_data
  (r.1, { u with read_data := r.2 })

/-- Fuel-driven recursion behind `chunksOf`; the fuel only serves to make
the recursion structural, `l.length` of it always suffices. -/
def chunksOf_fuel (n : Nat) : Nat → List Nat → List (List Nat)
  | 0, _ => []
  | _ + 1, [] => []
  | fuel + 1, b :: rest =>
    (b :: rest).take n :: chunksOf_fuel n fuel ((b :: rest).drop n)

/-- Rust `slice::chunks(n)` for `n > 0`: consecutive chunks of at most `n`
elements; an empty slice yields no chunk at all.  The characteristic
recursion equation is proved as `chunksOf_ne_nil` below. -/
def chunksOf (n : Nat) (l : List Nat) : List (List Nat) :=
  chunksOf_fuel n l.length l

/-- The loop body of `send_multiple_packets_with_ack`, recursing over the
chunks produced by `data.chunks(250)` with the running sequence byte. -/
def send_multiple_aux : Channel → List (List Nat) → Nat → Nat → Except String Unit × Channel
  | u, [], _, _ => (.ok (), u)
  | u, chunk :: rest, sequence, retries =>
    let packet := Packet.new (sequence :: chunk)
    match send_packet_with_ack u packet retries with
    | (.ok _, u1) => send_multiple_aux u1 rest ((sequence + 1) % 256) retries
    | (.error e, u1) => (.error e, u1)

/-- Embeds `send_multiple_packets_with_ack` from src/uart.rs: split `data` into
chunks of at most 250 bytes (`max_payload_size`), prepend the sequence
byte to each chunk, and send each resulting packet with ACK. -/
def send_multiple_packets_with_ack (u : Channel) (data : List Nat) (retries : Nat) :
    Except String Unit × Channel :=
  send_multiple_aux u (chunksOf 250 data) 0 retries

/-- The `loop` of `receive_multiple_packets`, with explicit accumulated
data and expected sequence number.  The fuel argument only bounds the
recursion: every successful `receive_packet` consumes at least one byte of
the queue, so fuel `read_data.length + 1` is never exhausted. -/
def receive_multiple_aux : Nat → Channel → List Nat → Nat → Except String (List Nat) × Channel
  | 0, u, _, _ => (.error "Failed to receive packet", u)
  | Nat.succ f, u, data, expected_sequence =>
    match receive_packet u with
    | (.error e, u1) => (.error e, u1)
    | (.ok p, u1) =>
      if p.payload.isEmpty then (.error "Empty packet received", u1)
      else
        let sequence := p.payload.headD 0
        if sequence ≠ expected_sequence then (.error "Packet sequence out of order", u1)
        else
          let data2 := data ++ p.payload.drop 1
          if p.payload.length < 250 then (.ok data2, u1)
          else receive_multiple_aux f u1 data2 ((expected_sequence + 1) % 256)

/-- Embeds `receive_multiple_packets` from src/uart.rs: reassemble fragments in
strict sequence order, starting from expected sequence 0. -/
def receive_multiple_packets (u : Channel) : Except String (List Nat) × Channel :=
  receive_multiple_aux (u.read_data.length + 1) u [] 0

/-- The `SbtResponse` struct of src/sbt_client.rs. -/
structure SbtResponse where
  response_code : Nat
  args : List (List Nat)
  deriving Repr, DecidableEq

/-- The argument-parsing `for i in 0..arg_count` loop of
`SbtClient::receive_response`, recursing on the number of arguments still
to parse with the running `response_index`.  The source indexes
`response[response_index]` and slices
`response[response_index..response_index + arg_len]` without any bounds
check; an out-of-bounds index or slice is a Rust panic, embedded as
`none`. -/
def parse_args_loop (response : List Nat) : Nat → Nat → Option (List (List Nat))
  | 0, _ => some []
  | count + 1, response_index =>
    if response_index < response.length then
      let arg_len := response.getD response_index 0
      if response_index + 1 + arg_len ≤ response.length then
        match parse_args_loop response count (response_index + 1 + arg_len) with
        | some args => some ((response.drop (response_index + 1)).take arg_len :: args)
        | none => none
      else none
    else none

/-- The response-parsing stage of `SbtClient::receive_response`
(src/sbt_client.rs), applied to the buffer reassembled by
`receive_multiple_packets`.  The source reads `response[0]` and
`response[1]` unconditionally, so a buffer shorter than 2 bytes is a Rust
panic, embedded as `none`; likewise any panic inside the argument loop. -/
def receive_response_parse (response : List Nat) : Option SbtResponse :=
  if response.length < 2 then none
  else
    match parse_args_loop response (response.getD 1 0) 2 with
    | some args => some { response_code := response.getD 0 0, args := args }
    | none => none

/-- Embeds `create_response` from src/sbt_server.rs: status byte, argument count,
then each argument length-prefixed (`as u8` truncations included). -/
def create_response (response_code : Nat) (args : List (List Nat)) : List Nat :=
  response_code :: (args.length % 256) ::
    args.flatMap (fun arg => (arg.length % 256) :: arg)

/-- Embeds `SbtServer::process_request` (src/sbt_server.rs).  The handler map is
embedded as a partial function from command byte to handler.  The constants
are the `SbtResponseType` discriminants: 0x00 Success, 0x01 InvalidRequest,
0x02 HandlerNotFound, 0x03 InternalError.  The source first invokes the
found handler on `request[0..]` and discards the result, then looks the
handler up again and returns `handler(request[1..])`. -/
def process_request (handlers : Nat → Option (List Nat → List Nat))
    (request : List Nat) : List Nat :=
  if request.isEmpty then create_response 0x01 []
  else
    match handlers (request.headD 0) with
    | some handler =>
      let _discarded := handler request
      match handlers (request.headD 0) with
      | some handler2 => handler2 (request.drop 1)
      | none => [0x01]
    | none => create_response 0x02 []

/-- Outcome of one `SbtServer::run_non_blocking` cycle: normal return,
error return, or Rust panic (an `unwrap` on `Err`). -/
inductive ServerResult where
  | ok
  | err (e : String)
  | panic
  deriving Repr, DecidableEq

/-- Embeds `SbtServer::send_response`: send the response buffer via
`send_multiple_packets_with_ack` with 3 retries. -/
def send_response (u : Channel) (response : List Nat) : Except String Unit × Channel :=
  send_multiple_packets_with_ack u response 3

/-- Embeds `SbtServer::run_non_blocking` (src/sbt_server.rs).  When receiving the
request fails, the source does
`self.uart.write(&[SbtResponseType::InvalidRequest as u8]).unwrap()` and
then returns `Ok(())`: a failing write makes the `unwrap` panic. -/
def run_non_blocking (handlers : Nat → Option (List Nat → List Nat))
    (u : Channel) : ServerResult × Channel :=
  match receive_multiple_packets u with
  | (.ok request, u1) =>
    let response := process_request handlers request
    match send_response u1 response with
    | (.ok _, u2) => (.ok, u2)
    | (.error e, u2) => (.err e, u2)
  | (.error _, u1) =>
    match u1.write [0x01] with
    | .ok (_, u2) => (.ok, u2)
    | .error _ => (.panic, u1)

/-- The unescaped fragment payloads `send_multiple_packets_with_ack`
builds for `data`: each chunk of `data.chunks(250)` prefixed with the
running sequence byte (starting at 0, `wrapping_add(1)` after each
fragment). -/
def fragment_payloads_aux : List (List Nat) → Nat → List (List Nat)
  | [], _ => []
  | chunk :: rest, sequence =>
    (sequence :: chunk) :: fragment_payloads_aux rest ((sequence + 1) % 256)

/-- The fragment payloads of a whole transfer, starting at sequence 0. -/
def fragment_payloads (data : List Nat) : List (List Nat) :=
  fragment_payloads_aux (chunksOf 250 data) 0

/-- Observer used to inspect a transmitted byte stream: repeatedly parse
one frame off the stream with the repository's own `receive_packet` loop
and collect the decoded payloads, stopping at the first parse failure. -/
def frames_of : Nat → List Nat → List (List Nat)
  | 0, _ => []
  | fuel + 1, stream =>
    match receive_packet_aux [] stream with
    | (.ok p, rest) => p.payload :: frames_of fuel rest
    | (.error _, _) => []

/-- The bytes `send_multiple_packets_with_ack` writes for `data` when the
channel supplies one ACK per fragment (the scenario of the repository's
own tests): run the sender on a fresh channel whose pending input is that
many ACK bytes and take the write log. -/
def sent_stream (data : List Nat) : List Nat :=
  (send_multiple_packets_with_ack
    { read_data := List.replicate (chunksOf 250 data).length ACK_BYTE
      write_data := []
      write_fails := false } data 3).2.write_data

/-- The full round trip of the fragmented transport, as exercised by the
repository's tests: send `data` with one ACK supplied per fragment, then
feed the written byte stream into `receive_multiple_packets` on a fresh
channel and return its result. -/
def multi_roundtrip (data : List Nat) : Except String (List Nat) :=
  match send_multiple_packets_with_ack
      { read_data := List.replicate (chunksOf 250 data).length ACK_BYTE
        write_data := []
        write_fails := false } data 3 with
  | (.ok _, u1) =>
    (receive_multiple_packets
      { read_data := u1.write_data, write_data := [], write_fails := false }).1
  | (.error e, _) => .error e

-- THEOREMS-MARKER

theorem chunksOf_fuel_eq (n : Nat) (hn : 0 < n) (fuel : Nat) (l : List Nat)
    (h : List.length l ≤ fuel) : chunksOf_fuel n fuel l = chunksOf n l := by
  match l, fuel with
  | [], 0 => rfl
  | [], _ + 1 => rfl
  | b :: rest, f + 1 =>
    have hdrop : ((b :: rest).drop n).length < (b :: rest).length := by
      simp only [List.length_drop, List.length_cons]
      omega
    have h1 : ((b :: rest).drop n).length ≤ f := by
      simp only [List.length_drop, List.length_cons]
      simp only [List.length_cons] at h
      omega
    have h2 : ((b :: rest).drop n).length ≤ rest.length := by
      simp only [List.length_drop, List.length_cons]
      omega
    show (b :: rest).take n :: chunksOf_fuel n f ((b :: rest).drop n) = chunksOf n (b :: rest)
    rw [chunksOf_fuel_eq n hn f _ h1]
    show _ = chunksOf_fuel n (rest.length + 1) (b :: rest)
    show _ = (b :: rest).take n :: chunksOf_fuel n rest.length ((b :: rest).drop n)
    rw [chunksOf_fuel_eq n hn rest.length _ h2]
termination_by l.length
decreasing_by
  all_goals exact hdrop

/-- The function `chunksOf` satisfies the defining recursion of Rust `slice::chunks`:
a non-empty list yields its first `n` elements as the first chunk followed
by the chunks of the rest. -/
theorem chunksOf_ne_nil (n : Nat) (hn : 0 < n) (l : List Nat) (hl : l ≠ []) :
    chunksOf n l = l.take n :: chunksOf n (l.drop n) := by
  match l with
  | b :: rest =>
    show (b :: rest).take n :: chunksOf_fuel n rest.length ((b :: rest).drop n) = _
    rw [chunksOf_fuel_eq n hn rest.length _
      (by simp only [List.length_drop, List.length_cons]; omega)]

/-- Every chunk produced by `chunksOf n` has at most `n` elements. -/
theorem chunksOf_length_le (n : Nat) :
    ∀ fuel l c, c ∈ chunksOf_fuel n fuel l → c.length ≤ n := by
  intro fuel
  induction fuel with
  | zero => intro l c h; simp [chunksOf_fuel] at h
  | succ f ih =>
    intro l c h
    match l with
    | [] => simp [chunksOf_fuel] at h
    | b :: rest =>
      simp only [chunksOf_fuel, List.mem_cons] at h
      rcases h with h | h
      · subst h
        exact List.length_take_le n (b :: rest)
      · exact ih _ _ h

/-- C1 (code bug evaluation). The claim says `from_bytes (to_bytes (new p))`
returns `Ok` with payload `p` for every `p`, including payloads containing
the reserved bytes.  At `p = [0x7E]` the code instead fails with
"Checksum mismatch": `Packet::new` computes the checksum over the escaped
payload `[0x7D, 0x5E]` (0xDB), while `Packet::from_bytes` validates the
transmitted checksum against the checksum of the unescaped payload
`[0x7E]` (0x7E). -/
theorem c1_roundtrip_checksum_bug :
    Packet.from_bytes (Packet.new [0x7E]).to_bytes = .error "Checksum mismatch" ∧
    (Packet.new [0x7E]).checksum = 0xDB ∧
    calculate_checksum (unescape_payload (escape_payload [0x7E])) = 0x7E ∧
    Packet.from_bytes (Packet.new [0x01, 0x02, 0x03]).to_bytes =
      .ok { start_byte := START_BYTE, length := 3, payload := [0x01, 0x02, 0x03],
            checksum := 6, end_byte := END_BYTE } :=
  ⟨rfl, rfl, rfl, rfl⟩

/-- C3 (code bug evaluation). The claim says that for empty data the
sender still transmits one fragment whose unescaped payload is the single
sequence byte 0.  In the code `data.chunks(250)` yields no chunk for empty
data, so `send_multiple_packets_with_ack` returns `Ok` without writing a
single byte to the channel. -/
theorem c3_empty_data_sends_no_fragment :
    send_multiple_packets_with_ack
        { read_data := [], write_data := [], write_fails := false } [] 3 =
      (.ok (), { read_data := [], write_data := [], write_fails := false }) ∧
    chunksOf 250 [] = [] :=
  ⟨rfl, rfl⟩

/-- C2 (counterexample). The claim asserts the `send`/`receive` round trip
for data of lengths 0, 249, 250, 251, 600 and 800.  It fails for the first
three: for length 0 `data.chunks(250)` yields no chunk, so no fragment at
all is written; for lengths 249 and 250 the single fragment has an
unescaped payload of 250 resp. 251 bytes, which the receiver's termination
test `payload.len() < 250` does not recognise as final, so it keeps waiting
for another packet and fails when the stream ends. -/
theorem c2_roundtrip_stated_cex :
    multi_roundtrip [] = .error "Failed to receive packet" ∧
    multi_roundtrip (List.replicate 249 1) = .error "Failed to receive packet" ∧
    multi_roundtrip (List.replicate 250 1) = .error "Failed to receive packet" ∧
    multi_roundtrip [] ≠ .ok [] ∧
    multi_roundtrip (List.replicate 249 1) ≠ .ok (List.replicate 249 1) ∧
    multi_roundtrip (List.replicate 250 1) ≠ .ok (List.replicate 250 1) :=
  ⟨rfl, rfl, rfl, fun hc => Except.noConfusion hc, fun hc => Except.noConfusion hc,
   fun hc => Except.noConfusion hc⟩

/-- C2 (amended). For data of lengths 251, 600 and 800 made of
non-reserved bytes (here the byte 0x01), feeding the byte stream produced
by `send_multiple_packets_with_ack` (one ACK supplied per fragment) into
`receive_multiple_packets` yields exactly the original data, and the
sequence bytes of the transmitted fragments are 0, 1, 2, … incrementing by
one; for lengths 0, 249 and 250 the receiver fails instead. -/
theorem c2_roundtrip_amended :
    multi_roundtrip (List.replicate 251 1) = .ok (List.replicate 251 1) ∧
    multi_roundtrip (List.replicate 600 1) = .ok (List.replicate 600 1) ∧
    multi_roundtrip (List.replicate 800 1) = .ok (List.replicate 800 1) ∧
    (frames_of (sent_stream (List.replicate 800 1)).length
        (sent_stream (List.replicate 800 1))).map (fun pl => pl.headD 0) =
      [0, 1, 2, 3] ∧
    (frames_of (sent_stream (List.replicate 600 1)).length
        (sent_stream (List.replicate 600 1))).map (fun pl => pl.headD 0) =
      [0, 1, 2] ∧
    (frames_of (sent_stream (List.replicate 251 1)).length
        (sent_stream (List.replicate 251 1))).map (fun pl => pl.headD 0) =
      [0, 1] :=
  ⟨rfl, rfl, rfl, rfl, rfl, rfl⟩

/-- One round of `send_packet_with_ack` on a channel whose next pending
byte is an ACK: the frame is written once and the call succeeds. -/
theorem send_packet_with_ack_first_ack (u : Channel) (p : Packet) (r : Nat)
    (rest : List Nat) (hw : u.write_fails = false)
    (hr : u.read_data = ACK_BYTE :: rest) :
    send_packet_with_ack u p (r + 1) =
      (.ok (), { read_data := rest, write_data := u.write_data ++ p.to_bytes,
                 write_fails := false }) := by
  obtain ⟨rd, wd, wf⟩ := u
  simp only at hw hr
  subst hw hr
  simp [send_packet_with_ack, send_packet, Channel.write, ack_wait_aux]

/-- Running `send_multiple_aux` on a channel whose pending input is one
ACK byte per chunk succeeds and writes exactly the serialized frames of
the fragment payloads, in order. -/
theorem send_multiple_aux_acked (chunks : List (List Nat)) :
    ∀ (seq : Nat) (w : List Nat),
      send_multiple_aux
          { read_data := List.replicate chunks.length ACK_BYTE
            write_data := w, write_fails := false } chunks seq 3 =
        (.ok (),
         { read_data := []
           write_data :=
             w ++ (fragment_payloads_aux chunks seq).flatMap
               (fun pl => (Packet.new pl).to_bytes)
           write_fails := false }) := by
  induction chunks with
  | nil =>
    intro seq w
    simp [send_multiple_aux, fragment_payloads_aux]
  | cons c cs ih =>
    intro seq w
    simp only [send_multiple_aux]
    rw [send_packet_with_ack_first_ack _ _ 2 (List.replicate cs.length ACK_BYTE) rfl
      (by simp [List.replicate_succ])]
    simp only []
    rw [ih ((seq + 1) % 256) (w ++ (Packet.new (seq :: c)).to_bytes)]
    simp [fragment_payloads_aux, List.append_assoc]

/-- Membership in `fragment_payloads_aux`: every fragment payload is some
sequence byte consed onto one of the chunks. -/
theorem fragment_payloads_aux_mem :
    ∀ (chunks : List (List Nat)) (seq pl : _), pl ∈ fragment_payloads_aux chunks seq →
      ∃ c ∈ chunks, ∃ s, pl = s :: c := by
  intro chunks
  induction chunks with
  | nil => intro seq pl h; simp [fragment_payloads_aux] at h
  | cons c cs ih =>
    intro seq pl h
    simp only [fragment_payloads_aux, List.mem_cons] at h
    rcases h with h | h
    · exact ⟨c, List.mem_cons_self c cs, seq, h⟩
    · obtain ⟨c2, hc2, s, hs⟩ := ih _ _ h
      exact ⟨c2, List.mem_cons_of_mem c hc2, s, hs⟩

/-- C4 (amended). Every fragment emitted by
`send_multiple_packets_with_ack` has an unescaped payload of at most 251
bytes: the sequence byte plus a chunk of at most 250 data bytes (the code
chunks the data at 250 bytes and then prepends the sequence byte, so the
250-byte cap excludes the sequence byte rather than including it).  The
bytes the sender writes when one ACK is supplied per fragment are exactly
the serialized frames of these fragment payloads. -/
theorem c4_fragment_payload_bound (data : List Nat) :
    (∀ pl ∈ fragment_payloads data, pl.length ≤ 251) ∧
    sent_stream data =
      (fragment_payloads data).flatMap (fun pl => (Packet.new pl).to_bytes) := by
  constructor
  · intro pl hpl
    obtain ⟨c, hc, s, hs⟩ := fragment_payloads_aux_mem _ _ _ hpl
    subst hs
    have : c.length ≤ 250 := chunksOf_length_le 250 data.length data c hc
    simp only [List.length_cons]
    omega
  · show (send_multiple_aux _ (chunksOf 250 data) 0 3).2.write_data = _
    rw [send_multiple_aux_acked (chunksOf 250 data) 0 []]
    simp [fragment_payloads]

/-- C4 (counterexample to the claim as stated). For data of 250 bytes the
single emitted fragment has an unescaped payload of 251 bytes — more than
the 250-byte cap (249 data bytes plus sequence byte) the claim asserts. -/
theorem c4_payload_cap_cex :
    ∃ pl ∈ fragment_payloads (List.replicate 250 1), 250 < pl.length := by
  decide

/-- C4 witness: the bound instantiated at 250 bytes of data. -/
theorem c4_payload_bound_witness :
    (0 :: List.replicate 250 1) ∈ fragment_payloads (List.replicate 250 1) ∧
    (0 :: List.replicate 250 1).length ≤ 251 :=
  ⟨by decide,
   (c4_fragment_payload_bound (List.replicate 250 1)).1 (0 :: List.replicate 250 1)
     (by decide)⟩

/-- C5 (code bug evaluation). The claim says the response parsing in
`SbtClient::send_request` is bounds-checked and fails with a
`MalformedResponse` error on a short buffer or an argument length that
overruns the buffer.  The source indexes `response[0]`, `response[1]` and
slices `response[idx..idx + arg_len]` without any check, so both a
reassembled buffer shorter than the 2-byte header and a declared argument
length exceeding the remaining bytes are Rust panics (embedded as `none`),
not `MalformedResponse` errors. -/
theorem c5_response_parse_panics :
    receive_response_parse [] = none ∧
    receive_response_parse [0x00] = none ∧
    receive_response_parse [0x00, 0x01, 0x05] = none ∧
    receive_response_parse [0x00, 0x01, 0x03, 0x01, 0x02, 0x03] =
      some { response_code := 0x00, args := [[0x01, 0x02, 0x03]] } :=
  ⟨rfl, rfl, rfl, rfl⟩


/-- C6 (confirmed). `SbtServer::process_request`: an empty request yields
the two-byte InvalidRequest response `[0x01, 0x00]`; a non-empty request
whose command byte has no registered handler yields the HandlerNotFound
response `[0x02, 0x00]`; and when a handler is registered for the command
byte, the returned response is the handler applied to the request minus
its first byte. -/
theorem c6_process_request_cases
    (handlers : Nat → Option (List Nat → List Nat)) (request : List Nat) :
    (request = [] → process_request handlers request = [0x01, 0x00]) ∧
    (request ≠ [] → handlers (request.headD 0) = none →
      process_request handlers request = [0x02, 0x00]) ∧
    (∀ h, request ≠ [] → handlers (request.headD 0) = some h →
      process_request handlers request = h (request.drop 1)) := by
  refine ⟨?_, ?_, ?_⟩
  · intro he
    subst he
    rfl
  · intro hne hnone
    obtain ⟨r, rs, rfl⟩ := List.exists_cons_of_ne_nil hne
    simp only [List.headD_cons] at hnone
    simp [process_request, hnone, create_response]
  · intro h hne hsome
    obtain ⟨r, rs, rfl⟩ := List.exists_cons_of_ne_nil hne
    simp only [List.headD_cons] at hsome
    simp [process_request, hsome]

/-- C6 witness: the three cases at concrete inputs. -/
theorem c6_process_request_witness :
    process_request (fun _ => none) [] = [0x01, 0x00] ∧
    process_request (fun _ => none) [0x07] = [0x02, 0x00] ∧
    process_request (fun _ => some (fun args => 0x00 :: args)) [0x07, 0x09] =
      [0x00, 0x09] :=
  ⟨(c6_process_request_cases (fun _ => none) []).1 rfl,
   (c6_process_request_cases (fun _ => none) [0x07]).2.1 (by simp) rfl,
   ((c6_process_request_cases (fun _ => some (fun args => 0x00 :: args))
      [0x07, 0x09]).2.2 _ (by simp) rfl).trans rfl⟩

/-- On a queue containing no ACK byte, the wait window never reports
success, and the remaining queue still contains no ACK byte. -/
theorem ack_wait_aux_no_ack (q : List Nat) (h : ACK_BYTE ∉ q) :
    (ack_wait_aux q).1 = false ∧ ACK_BYTE ∉ (ack_wait_aux q).2 := by
  induction q with
  | nil => exact ⟨rfl, by simp [ack_wait_aux]⟩
  | cons b rest ih =>
    have hb : ¬b = ACK_BYTE := by
      intro e
      exact h (e ▸ List.mem_cons_self b rest)
    have hrest : ACK_BYTE ∉ rest := fun m => h (List.mem_cons_of_mem b m)
    by_cases hn : b = NACK_BYTE
    · subst hn
      refine ⟨by simp [ack_wait_aux, hb], ?_⟩
      simpa [ack_wait_aux, hb] using hrest
    · simpa [ack_wait_aux, hb, hn] using ih hrest

/-- A wait window whose queue holds only non-ACK, non-NACK bytes before an
ACK discards those bytes and reports success. -/
theorem ack_wait_aux_junk (junk : List Nat) (rest : List Nat)
    (h1 : ACK_BYTE ∉ junk) (h2 : NACK_BYTE ∉ junk) :
    ack_wait_aux (junk ++ ACK_BYTE :: rest) = (true, rest) := by
  induction junk with
  | nil => simp [ack_wait_aux]
  | cons b js ih =>
    have hb : ¬b = ACK_BYTE := by
      intro e
      exact h1 (e ▸ List.mem_cons_self b js)
    have hn : ¬b = NACK_BYTE := by
      intro e
      exact h2 (e ▸ List.mem_cons_self b js)
    have h1r : ACK_BYTE ∉ js := fun m => h1 (List.mem_cons_of_mem b m)
    have h2r : NACK_BYTE ∉ js := fun m => h2 (List.mem_cons_of_mem b m)
    simpa [ack_wait_aux, hb, hn] using ih h1r h2r

/-- One round of `send_packet_with_ack` whose wait window reads an ACK:
the frame is written once and the call succeeds immediately. -/
theorem send_packet_with_ack_acked_window (u : Channel) (p : Packet) (r : Nat)
    (rest : List Nat) (hw : u.write_fails = false)
    (hr : ack_wait_aux u.read_data = (true, rest)) :
    send_packet_with_ack u p (r + 1) =
      (.ok (), { read_data := rest, write_data := u.write_data ++ p.to_bytes,
                 write_fails := false }) := by
  obtain ⟨rd, wd, wf⟩ := u
  simp only at hw hr
  subst hw
  simp [send_packet_with_ack, send_packet, Channel.write, hr]

/-- One round of `send_packet_with_ack` whose wait window reads a NACK
first: the current window is abandoned and the remaining rounds proceed on
the channel with the frame written once and the NACK consumed. -/
theorem send_packet_with_ack_nack_head (u : Channel) (p : Packet) (r : Nat)
    (rest : List Nat) (hw : u.write_fails = false)
    (hr : u.read_data = NACK_BYTE :: rest) :
    send_packet_with_ack u p (r + 1) =
      send_packet_with_ack
        { read_data := rest, write_data := u.write_data ++ p.to_bytes,
          write_fails := false } p r := by
  obtain ⟨rd, wd, wf⟩ := u
  simp only at hw hr
  subst hw hr
  simp [send_packet_with_ack, send_packet, Channel.write, ack_wait_aux, NACK_BYTE, ACK_BYTE]

/-- On a channel that never yields an ACK byte, `send_packet_with_ack`
with `n` retries fails with the retry-exhaustion error after writing the
frame exactly `n` times. -/
theorem send_packet_with_ack_no_ack (p : Packet) :
    ∀ (n : Nat) (u : Channel), u.write_fails = false → ACK_BYTE ∉ u.read_data →
      (send_packet_with_ack u p n).1 =
        .error "Failed to send packet after retries" ∧
      (send_packet_with_ack u p n).2.write_data =
        u.write_data ++ (List.replicate n p.to_bytes).flatten := by
  intro n
  induction n with
  | zero => exact fun u h1 h2 => ⟨rfl, by simp [send_packet_with_ack]⟩
  | succ m ih =>
    intro u h1 h2
    obtain ⟨rd, wd, wf⟩ := u
    simp only at h1 h2
    subst h1
    obtain ⟨hf, hm⟩ := ack_wait_aux_no_ack rd h2
    have step :
        send_packet_with_ack ⟨rd, wd, false⟩ p (m + 1) =
          send_packet_with_ack
            ⟨(ack_wait_aux rd).2, wd ++ p.to_bytes, false⟩ p m := by
      simp [send_packet_with_ack, send_packet, Channel.write, hf]
    rw [step]
    obtain ⟨ha, hb⟩ := ih ⟨(ack_wait_aux rd).2, wd ++ p.to_bytes, false⟩ rfl hm
    refine ⟨ha, ?_⟩
    rw [hb]
    simp [List.replicate_succ, List.append_assoc]

/-- C7 (confirmed). `send_packet_with_ack`: (1) on a channel where no ACK
byte ever arrives, 3 retries write the serialized packet exactly 3 times
and then fail with the retry-exhaustion error; (2) on any attempt, an ACK
byte (preceded only by bytes that are neither ACK nor NACK, which are
silently discarded) makes the call succeed immediately with the frame
written once; (3) a NACK byte abandons the current wait window and the
remaining attempts resend. -/
theorem c7_send_with_ack_behavior :
    (∀ (u : Channel) (p : Packet), u.write_fails = false →
      ACK_BYTE ∉ u.read_data →
      (send_packet_with_ack u p 3).1 =
        .error "Failed to send packet after retries" ∧
      (send_packet_with_ack u p 3).2.write_data =
        u.write_data ++ (List.replicate 3 p.to_bytes).flatten) ∧
    (∀ (u : Channel) (p : Packet) (junk rest : List Nat) (r : Nat),
      u.write_fails = false → u.read_data = junk ++ ACK_BYTE :: rest →
      ACK_BYTE ∉ junk → NACK_BYTE ∉ junk →
      send_packet_with_ack u p (r + 1) =
        (.ok (), { read_data := rest, write_data := u.write_data ++ p.to_bytes,
                   write_fails := false })) ∧
    (∀ (u : Channel) (p : Packet) (rest : List Nat) (r : Nat),
      u.write_fails = false → u.read_data = NACK_BYTE :: rest →
      send_packet_with_ack u p (r + 1) =
        send_packet_with_ack
          { read_data := rest, write_data := u.write_data ++ p.to_bytes,
            write_fails := false } p r) := by
  refine ⟨?_, ?_, ?_⟩
  · exact fun u p h1 h2 => send_packet_with_ack_no_ack p 3 u h1 h2
  · intro u p junk rest r h1 h2 h3 h4
    exact send_packet_with_ack_acked_window u p r rest h1
      (by rw [h2]; exact ack_wait_aux_junk junk rest h3 h4)
  · exact fun u p rest r h1 h2 => send_packet_with_ack_nack_head u p r rest h1 h2

/-- C7 witness: the three behaviors at concrete inputs, for the packet
with payload `[1, 2, 3]`. -/
theorem c7_send_with_ack_witness :
    ((send_packet_with_ack
        { read_data := [0x00, 0x15, 0x42], write_data := [], write_fails := false }
        (Packet.new [1, 2, 3]) 3).1 =
      .error "Failed to send packet after retries" ∧
     (send_packet_with_ack
        { read_data := [0x00, 0x15, 0x42], write_data := [], write_fails := false }
        (Packet.new [1, 2, 3]) 3).2.write_data =
      [] ++ (List.replicate 3 (Packet.new [1, 2, 3]).to_bytes).flatten) ∧
    send_packet_with_ack
        { read_data := [0x33, 0x06, 0x09], write_data := [], write_fails := false }
        (Packet.new [1, 2, 3]) 3 =
      (.ok (), { read_data := [0x09],
                 write_data := [] ++ (Packet.new [1, 2, 3]).to_bytes,
                 write_fails := false }) ∧
    send_packet_with_ack
        { read_data := [0x15, 0x06], write_data := [], write_fails := false }
        (Packet.new [1, 2, 3]) 3 =
      send_packet_with_ack
        { read_data := [0x06], write_data := [] ++ (Packet.new [1, 2, 3]).to_bytes,
          write_fails := false }
        (Packet.new [1, 2, 3]) 2 :=
  ⟨c7_send_with_ack_behavior.1
      { read_data := [0x00, 0x15, 0x42], write_data := [], write_fails := false }
      (Packet.new [1, 2, 3]) rfl (by decide),
   c7_send_with_ack_behavior.2.1
      { read_data := [0x33, 0x06, 0x09], write_data := [], write_fails := false }
      (Packet.new [1, 2, 3]) [0x33] [0x09] 2 rfl rfl (by decide) (by decide),
   c7_send_with_ack_behavior.2.2
      { read_data := [0x15, 0x06], write_data := [], write_fails := false }
      (Packet.new [1, 2, 3]) [0x06] 2 rfl rfl⟩

/-- C8 (confirmed). The reassembly loop of `receive_multiple_packets`:
a received packet with an empty payload fails with "Empty packet
received"; a packet whose leading sequence byte differs from the expected
sequence fails with "Packet sequence out of order"; an accepted full
fragment appends its data bytes and advances the expected sequence by one
modulo 256; an accepted short fragment (payload shorter than 250) ends the
loop with the accumulated data; and the loop starts with expected
sequence 0 and no reordering or gap-filling anywhere. -/
theorem c8_receive_multiple_errors :
    (∀ (u u1 : Channel) (p : Packet) (f : Nat) (data : List Nat) (seq : Nat),
      receive_packet u = (.ok p, u1) → p.payload = [] →
      receive_multiple_aux (f + 1) u data seq =
        (.error "Empty packet received", u1)) ∧
    (∀ (u u1 : Channel) (p : Packet) (f : Nat) (data : List Nat) (seq : Nat),
      receive_packet u = (.ok p, u1) → p.payload ≠ [] →
      p.payload.headD 0 ≠ seq →
      receive_multiple_aux (f + 1) u data seq =
        (.error "Packet sequence out of order", u1)) ∧
    (∀ (u u1 : Channel) (p : Packet) (f : Nat) (data : List Nat) (seq : Nat),
      receive_packet u = (.ok p, u1) → p.payload ≠ [] →
      p.payload.headD 0 = seq → 250 ≤ p.payload.length →
      receive_multiple_aux (f + 1) u data seq =
        receive_multiple_aux f u1 (data ++ p.payload.drop 1) ((seq + 1) % 256)) ∧
    (∀ (u u1 : Channel) (p : Packet) (f : Nat) (data : List Nat) (seq : Nat),
      receive_packet u = (.ok p, u1) → p.payload ≠ [] →
      p.payload.headD 0 = seq → p.payload.length < 250 →
      receive_multiple_aux (f + 1) u data seq =
        (.ok (data ++ p.payload.drop 1), u1)) ∧
    (∀ u : Channel,
      receive_multiple_packets u = receive_multiple_aux (u.read_data.length + 1) u [] 0) := by
  refine ⟨?_, ?_, ?_, ?_, fun u => rfl⟩
  · intro u u1 p f data seq h hp
    simp [receive_multiple_aux, h, hp]
  · intro u u1 p f data seq h hp hs
    rcases hpl : p.payload with _ | ⟨b, tl⟩
    · exact absurd hpl hp
    · rw [hpl] at hs
      simp only [List.headD_cons] at hs
      simp [receive_multiple_aux, h, hpl, hs]
  · intro u u1 p f data seq h hp hs h250
    rcases hpl : p.payload with _ | ⟨b, tl⟩
    · exact absurd hpl hp
    · rw [hpl] at hs
      simp only [List.headD_cons] at hs
      subst hs
      rw [hpl] at h250
      simp only [List.length_cons] at h250
      simp [receive_multiple_aux, h, hpl]
      intro hlt
      omega
  · intro u u1 p f data seq h hp hs h250
    rcases hpl : p.payload with _ | ⟨b, tl⟩
    · exact absurd hpl hp
    · rw [hpl] at hs
      simp only [List.headD_cons] at hs
      subst hs
      rw [hpl] at h250
      simp only [List.length_cons] at h250
      simp [receive_multiple_aux, h, hpl]
      intro hge
      omega

/-- C8 witness: the four loop behaviors at concrete frames (an
empty-payload frame, a frame with wrong sequence byte 5, a full 250-byte
fragment with sequence 0, and a short fragment with sequence 0). -/
theorem c8_receive_multiple_witness :
    receive_multiple_aux 1
        { read_data := [0x7E, 0x00, 0x00, 0x7F], write_data := [], write_fails := false }
        [] 0 =
      (.error "Empty packet received",
       { read_data := [], write_data := [], write_fails := false }) ∧
    receive_multiple_aux 1
        { read_data := [0x7E, 0x01, 0x05, 0x05, 0x7F], write_data := [], write_fails := false }
        [] 0 =
      (.error "Packet sequence out of order",
       { read_data := [], write_data := [], write_fails := false }) ∧
    receive_multiple_aux 2
        { read_data := (Packet.new (0 :: List.replicate 249 1)).to_bytes,
          write_data := [], write_fails := false } [] 0 =
      receive_multiple_aux 1
        { read_data := [], write_data := [], write_fails := false }
        ([] ++ (0 :: List.replicate 249 1).drop 1) ((0 + 1) % 256) ∧
    receive_multiple_aux 1
        { read_data := [0x7E, 0x03, 0x00, 0x01, 0x02, 0x03, 0x7F],
          write_data := [], write_fails := false } [] 0 =
      (.ok ([] ++ [0x00, 0x01, 0x02].drop 1),
       { read_data := [], write_data := [], write_fails := false }) :=
  ⟨c8_receive_multiple_errors.1
      { read_data := [0x7E, 0x00, 0x00, 0x7F], write_data := [], write_fails := false }
      { read_data := [], write_data := [], write_fails := false }
      { start_byte := 0x7E, length := 0, payload := [], checksum := 0, end_byte := 0x7F }
      0 [] 0 rfl rfl,
   c8_receive_multiple_errors.2.1
      { read_data := [0x7E, 0x01, 0x05, 0x05, 0x7F], write_data := [], write_fails := false }
      { read_data := [], write_data := [], write_fails := false }
      { start_byte := 0x7E, length := 1, payload := [0x05], checksum := 0x05, end_byte := 0x7F }
      0 [] 0 rfl (by simp) (by decide),
   c8_receive_multiple_errors.2.2.1
      { read_data := (Packet.new (0 :: List.replicate 249 1)).to_bytes,
        write_data := [], write_fails := false }
      { read_data := [], write_data := [], write_fails := false }
      { start_byte := 0x7E, length := 250, payload := 0 :: List.replicate 249 1,
        checksum := 249, end_byte := 0x7F }
      1 [] 0 (by rfl) (by simp) (by rfl) (by simp),
   c8_receive_multiple_errors.2.2.2.1
      { read_data := [0x7E, 0x03, 0x00, 0x01, 0x02, 0x03, 0x7F],
        write_data := [], write_fails := false }
      { read_data := [], write_data := [], write_fails := false }
      { start_byte := 0x7E, length := 3, payload := [0x00, 0x01, 0x02],
        checksum := 0x03, end_byte := 0x7F }
      0 [] 0 rfl (by simp) rfl (by decide)⟩

/-- C9 (confirmed). `SbtServer::run_non_blocking`: when receiving the
request fails, the server writes the single raw InvalidRequest byte 0x01
to the channel with `.unwrap()`; if that write also fails the server
panics, and only when it succeeds does `run_non_blocking` return `Ok`. -/
theorem c9_receive_failure_write_unwrap
    (handlers : Nat → Option (List Nat → List Nat)) (u : Channel)
    (e : String) (u1 : Channel)
    (h : receive_multiple_packets u = (.error e, u1)) :
    (u1.write_fails = true → run_non_blocking handlers u = (.panic, u1)) ∧
    (u1.write_fails = false →
      run_non_blocking handlers u =
        (.ok, { u1 with write_data := u1.write_data ++ [0x01] })) := by
  constructor
  · intro hw
    simp [run_non_blocking, h, Channel.write, hw]
  · intro hw
    simp [run_non_blocking, h, Channel.write, hw]

/-- C9 witness: a channel with no pending input makes the receive fail;
with a failing write the server panics, with a working write it returns
`Ok` after writing the byte 0x01. -/
theorem c9_receive_failure_witness :
    run_non_blocking (fun _ => none)
        { read_data := [], write_data := [], write_fails := true } =
      (.panic, { read_data := [], write_data := [], write_fails := true }) ∧
    run_non_blocking (fun _ => none)
        { read_data := [], write_data := [], write_fails := false } =
      (.ok, { read_data := [], write_data := [] ++ [0x01], write_fails := false }) :=
  ⟨(c9_receive_failure_write_unwrap (fun _ => none)
      { read_data := [], write_data := [], write_fails := true }
      "Failed to receive packet"
      { read_data := [], write_data := [], write_fails := true } rfl).1 rfl,
   (c9_receive_failure_write_unwrap (fun _ => none)
      { read_data := [], write_data := [], write_fails := false }
      "Failed to receive packet"
      { read_data := [], write_data := [], write_fails := false } rfl).2 rfl⟩

/-- Auxiliary: `getLastD` of a list ending in an explicit two-element
suffix is the final element, independent of the default. -/
theorem getLastD_append_pair (a b : Nat) :
    ∀ (l : List Nat) (d : Nat), (l ++ [a, b]).getLastD d = b := by
  intro l
  induction l with
  | nil => intro d; rfl
  | cons x xs ih =>
    intro d
    rw [List.cons_append, List.getLastD_cons]
    exact ih x

/-- Auxiliary: `getD` at the index right before an explicit two-element
suffix yields the first element of that suffix. -/
theorem getD_append_pair (a b : Nat) :
    ∀ l : List Nat, (l ++ [a, b]).getD l.length 0 = a := by
  intro l
  induction l with
  | nil => rfl
  | cons x xs ih => simpa [List.getD] using ih

/-- Auxiliary: taking the length of the left part of an append with an
explicit two-element suffix yields the left part. -/
theorem take_append_pair (a b : Nat) :
    ∀ l : List Nat, (l ++ [a, b]).take l.length = l := by
  intro l
  induction l with
  | nil => rfl
  | cons x xs ih => simp [ih]

/-- Evaluating `Packet::from_bytes` on any frame-shaped buffer whose transmitted
checksum byte matches the checksum of the unescaped middle bytes: it
succeeds, and the returned payload is the unescaped middle regardless of
the length byte. -/
theorem from_bytes_frame (len c : Nat) (mid : List Nat)
    (h : c = calculate_checksum (unescape_payload mid)) :
    Packet.from_bytes (START_BYTE :: len :: (mid ++ [c, END_BYTE])) =
      .ok { start_byte := START_BYTE, length := len % 256,
            payload := unescape_payload mid, checksum := c,
            end_byte := END_BYTE } := by
  have hlen : (START_BYTE :: len :: (mid ++ [c, END_BYTE])).length = mid.length + 4 := by
    simp
  have hguard : ¬((START_BYTE :: len :: (mid ++ [c, END_BYTE])).length < 4 ∨
      (START_BYTE :: len :: (mid ++ [c, END_BYTE])).headD 0 ≠ START_BYTE ∨
      (START_BYTE :: len :: (mid ++ [c, END_BYTE])).getLastD 0 ≠ END_BYTE) := by
    push_neg
    refine ⟨by omega, rfl, ?_⟩
    rw [List.getLastD_cons, List.getLastD_cons]
    exact getLastD_append_pair c END_BYTE mid len
  have hcs : (START_BYTE :: len :: (mid ++ [c, END_BYTE])).getD
      ((START_BYTE :: len :: (mid ++ [c, END_BYTE])).length - 2) 0 = c := by
    rw [hlen]
    have e1 : mid.length + 4 - 2 = mid.length + 2 := by omega
    rw [e1]
    show (mid ++ [c, END_BYTE]).getD mid.length 0 = c
    exact getD_append_pair c END_BYTE mid
  have hpl : ((START_BYTE :: len :: (mid ++ [c, END_BYTE])).drop 2).take
      ((START_BYTE :: len :: (mid ++ [c, END_BYTE])).length - 4) = mid := by
    rw [hlen]
    have e2 : mid.length + 4 - 4 = mid.length := by omega
    rw [e2]
    show (mid ++ [c, END_BYTE]).take mid.length = mid
    exact take_append_pair c END_BYTE mid
  simp only [Packet.from_bytes, if_neg hguard, hcs, hpl]
  rw [if_neg (by rw [h]; exact fun hne => hne rfl)]
  rfl

/-- C10 (confirmed). `Packet::from_bytes` never validates the length byte:
for every buffer of at least 4 bytes with correct delimiters and a
checksum byte matching the checksum of the unescaped middle, decoding
succeeds with payload the unescaped middle bytes (determined solely by the
buffer boundaries), so two buffers differing only in the length byte
decode to the same payload. -/
theorem c10_from_bytes_ignores_length (len1 len2 c : Nat) (mid : List Nat)
    (h : c = calculate_checksum (unescape_payload mid)) :
    Packet.from_bytes (START_BYTE :: len1 :: (mid ++ [c, END_BYTE])) =
      .ok { start_byte := START_BYTE, length := len1 % 256,
            payload := unescape_payload mid, checksum := c,
            end_byte := END_BYTE } ∧
    (Packet.from_bytes (START_BYTE :: len1 :: (mid ++ [c, END_BYTE]))).map
        Packet.payload =
      (Packet.from_bytes (START_BYTE :: len2 :: (mid ++ [c, END_BYTE]))).map
        Packet.payload := by
  refine ⟨from_bytes_frame len1 c mid h, ?_⟩
  rw [from_bytes_frame len1 c mid h, from_bytes_frame len2 c mid h]
  rfl

/-- C10 witness: two frames carrying the escaped middle `[0x7D, 0x5E]`
(checksum byte 0x7E) that differ only in the length byte (2 versus 0x37)
both decode to the unescaped payload `[0x7E]`. -/
theorem c10_from_bytes_witness :
    Packet.from_bytes [0x7E, 0x02, 0x7D, 0x5E, 0x7E, 0x7F] =
      .ok { start_byte := 0x7E, length := 0x02, payload := [0x7E],
            checksum := 0x7E, end_byte := 0x7F } ∧
    (Packet.from_bytes [0x7E, 0x02, 0x7D, 0x5E, 0x7E, 0x7F]).map Packet.payload =
      (Packet.from_bytes [0x7E, 0x37, 0x7D, 0x5E, 0x7E, 0x7F]).map Packet.payload :=
  (c10_from_bytes_ignores_length 0x02 0x37 0x7E [0x7D, 0x5E] (by decide))

end SimpProtocol
